import Mathlib

/-!
Shallow embedding of the PM Internship Smart Allocation Engine
(`src/smart_allocation_engine.py`): the data model, weight normalization
(`set_weights`), the five factor scorers, and recommendation composition
(`get_recommendations`).

Modelling conventions:
* Python floats are modelled by exact rationals (`ℚ`); Python's `round`
  (round half to even) is `pyRound`, and `round(x, 3)` is `roundTo3`.
* Python `str.lower()` / `str.strip()` are `pyLower` / `pyStrip`, written as
  structural recursion over the character list so the kernel can evaluate
  them on literals.
* The external `sklearn` TF-IDF vectorizer is abstracted: a fitted
  vectorizer-plus-matrix is a function `SimMatrix` taking the candidate's
  joined skill text and a row index to the cosine-similarity value, and
  `fit_transform` is an abstract parameter `fit : FitFun`.  The engine code
  only stores this object and applies it, which is all the claims need.
* Python's stable `list.sort(key=..., reverse=True)` is `List.mergeSort`
  with the comparison `recLE a b = (key b ≤ key a)`, which is a stable
  descending sort.
* Mutable state (`self.internship_data`, `self.weights`,
  `self.skill_matrix`) is threaded explicitly: methods that write engine
  state take and return an `Engine` value.
-/

/-- Python `str.lower()` (ASCII case mapping), as a map over the characters. -/
def pyLower (s : String) : String := String.mk (s.data.map Char.toLower)

/-- Python `str.strip()`: drop leading and trailing whitespace. -/
def pyStrip (s : String) : String :=
  String.mk (((s.data.dropWhile Char.isWhitespace).reverse.dropWhile Char.isWhitespace).reverse)

/-- Python `round` on a rational: round half to even (banker's rounding). -/
def pyRound (q : ℚ) : ℤ :=
  let f := ⌊q⌋
  let r := q - (f : ℚ)
  if r < 1/2 then f
  else if 1/2 < r then f + 1
  else if f % 2 = 0 then f else f + 1

/-- Python `round(x, 3)`: round to three decimal places, half to even. -/
def roundTo3 (q : ℚ) : ℚ := (pyRound (q * 1000) : ℚ) / 1000

/-- The skill text `' '.join(xs).lower()` fed to the vectorizer. -/
def joinLower (xs : List String) : String := pyLower (" ".intercalate xs)

/-- Candidate record: the `candidate_info` dict fields that
`get_recommendations` and the factor scorers read (missing dict keys
correspond to the `.get` default values). -/
structure Candidate where
  skills : List String
  location : String
  prefers_rural : Bool
  education_level : String
  sector_interests : List String
  from_rural_area : Bool
  social_category : String
  first_generation_graduate : Bool
deriving DecidableEq, Inhabited

/-- Internship listing record, with the fields built by the CSV loader and
`load_sample_data`. -/
structure Internship where
  id : ℤ
  title : String
  company : String
  sector : String
  location : String
  skills_required : List String
  education_level : String
  capacity : ℤ
  duration_months : ℤ
  stipend : ℤ
  rural_friendly : Bool
  diversity_focused : Bool
deriving DecidableEq, Inhabited

/-- The five-key weight dict `{'skill','location','education','sector','diversity'}`. -/
structure WeightMap where
  skill : ℤ
  location : ℤ
  education : ℤ
  sector : ℤ
  diversity : ℤ
deriving DecidableEq, Inhabited

/-- Sum of the five weight values (`sum(w.values())`). -/
def WeightMap.total (w : WeightMap) : ℤ :=
  w.skill + w.location + w.education + w.sector + w.diversity

/-- Clamp each weight to be non-negative (`max(0, int(weights.get(k, 0)))`). -/
def WeightMap.clamped (w : WeightMap) : WeightMap :=
  ⟨max 0 w.skill, max 0 w.location, max 0 w.education, max 0 w.sector, max 0 w.diversity⟩

/-- `SmartAllocationEngine.set_weights`: clamp negatives to 0, take
`total = sum(w.values()) or 1`, and set each weight to
`int(round(v / total * 100))`. -/
def set_weights (raw : WeightMap) : WeightMap :=
  let w := raw.clamped
  let total : ℤ := if w.total = 0 then 1 else w.total
  ⟨pyRound ((w.skill : ℚ) / (total : ℚ) * 100),
   pyRound ((w.location : ℚ) / (total : ℚ) * 100),
   pyRound ((w.education : ℚ) / (total : ℚ) * 100),
   pyRound ((w.sector : ℚ) / (total : ℚ) * 100),
   pyRound ((w.diversity : ℚ) / (total : ℚ) * 100)⟩

/-- Abstract fitted vectorizer-plus-matrix: candidate skill text and a row
index (position in `internship_data`) to the cosine-similarity value
`cosine_similarity(vectorizer.transform([text]), skill_matrix[idx])`. -/
abbrev SimMatrix := String → ℕ → ℚ

/-- Abstract `TfidfVectorizer.fit_transform`: the corpus of (lowercased,
joined) skill texts to the fitted matrix object. -/
abbrev FitFun := List String → SimMatrix

/-- Engine state: the fields of `SmartAllocationEngine` that the scoring
path reads or writes. -/
structure Engine where
  internship_data : List Internship
  weights : WeightMap
  skill_matrix : Option SimMatrix

/-- Engine state produced by `SmartAllocationEngine.__init__`. -/
def Engine.init : Engine := ⟨[], ⟨30, 20, 20, 15, 15⟩, none⟩

/-- The five built-in sample internships of `load_sample_data`. -/
def sample_data : List Internship :=
  [⟨1, "Software Development Intern", "TechCorp India", "Technology", "Bangalore",
    ["Python", "JavaScript", "React", "SQL"], "Bachelor", 5, 6, 15000, true, true⟩,
   ⟨2, "Data Science Intern", "DataAnalytics Ltd", "Technology", "Mumbai",
    ["Python", "Machine Learning", "Statistics", "Pandas"], "Master", 3, 4, 20000, false, true⟩,
   ⟨3, "Marketing Intern", "BrandBuilders", "Marketing", "Delhi",
    ["Digital Marketing", "Social Media", "Content Writing", "Analytics"], "Bachelor", 4, 3, 12000, true, false⟩,
   ⟨4, "Finance Intern", "FinTech Solutions", "Finance", "Chennai",
    ["Excel", "Financial Analysis", "Accounting", "PowerBI"], "Bachelor", 2, 5, 18000, false, true⟩,
   ⟨5, "Healthcare Research Intern", "MedResearch Institute", "Healthcare", "Hyderabad",
    ["Research", "Data Analysis", "Medical Knowledge", "Python"], "Master", 3, 6, 16000, true, true⟩]

/-- `SmartAllocationEngine.load_sample_data`: install the sample catalog and
fit TF-IDF on its skill texts (`fit_transform(texts) if texts else None`). -/
def Engine.load_sample_data (fit : FitFun) (e : Engine) : Engine :=
  let texts := sample_data.map (fun it => joinLower it.skills_required)
  { e with internship_data := sample_data,
           skill_matrix := if texts = [] then none else some (fit texts) }

/-- `SmartAllocationEngine.rebuild_tfidf`: refit TF-IDF on the current
catalog's skill texts; `None` when the catalog is empty. -/
def Engine.rebuild_tfidf (fit : FitFun) (e : Engine) : Engine :=
  let texts := e.internship_data.map (fun it => joinLower it.skills_required)
  { e with skill_matrix := if texts = [] then none else some (fit texts) }

/-- `SmartAllocationEngine._internship_index`: position of the first catalog
entry whose `id` equals the queried internship's `id`. -/
def Engine.internship_index (e : Engine) (internship : Internship) : Option ℕ :=
  e.internship_data.findIdx? (fun it => it.id == internship.id)

/-- `SmartAllocationEngine.calculate_skill_match_score`: with a fitted
matrix, cosine similarity of the candidate's skill text against the row of
the queried listing (0.0 on an id miss); without a matrix, the fallback
overlap `matches / max(1, len(ints))`, and 0.0 when either side is empty. -/
def Engine.calculate_skill_match_score (e : Engine) (candidate_skills : List String)
    (internship : Internship) : ℚ :=
  match e.skill_matrix with
  | some sim =>
    match e.internship_index internship with
    | none => 0
    | some idx => sim (joinLower candidate_skills) idx
  | none =>
    if candidate_skills = [] ∨ internship.skills_required = [] then 0
    else
      let cand := candidate_skills.map pyLower
      let ints := internship.skills_required.map pyLower
      let matchCount := ints.countP (fun s => decide (s ∈ cand))
      (matchCount : ℚ) / ((max 1 ints.length : ℕ) : ℚ)

/-- `SmartAllocationEngine.calculate_location_preference_score`. -/
def calculate_location_preference_score (candidate_location internship_location : String)
    (candidate_prefers_rural internship_rural_friendly : Bool) : ℚ :=
  if pyLower (pyStrip candidate_location) = pyLower (pyStrip internship_location) then 1.0
  else if candidate_prefers_rural && internship_rural_friendly then 0.8
  else 0.6

/-- The `levels` dict lookup `{'Diploma':1,'Bachelor':2,'Master':3,'PhD':4}.get(x, 2)`. -/
def education_rank (s : String) : ℤ :=
  if s = "Diploma" then 1
  else if s = "Bachelor" then 2
  else if s = "Master" then 3
  else if s = "PhD" then 4
  else 2

/-- `SmartAllocationEngine.calculate_education_match_score`. -/
def calculate_education_match_score (candidate_education internship_education : String) : ℚ :=
  let c := education_rank candidate_education
  let i := education_rank internship_education
  if c = i then 1.0
  else if c > i then 0.8
  else 0.4

/-- `SmartAllocationEngine.calculate_sector_interest_score`. -/
def calculate_sector_interest_score (candidate_interests : List String)
    (internship_sector : String) : ℚ :=
  if candidate_interests = [] then 0.5
  else if pyLower internship_sector ∈ candidate_interests.map pyLower then 1.0
  else 0.3

/-- `SmartAllocationEngine.calculate_diversity_score`: additive bonuses,
capped by `min(score, 1.0)`. -/
def calculate_diversity_score (candidate_info : Candidate) (internship_info : Internship) : ℚ :=
  let score : ℚ := 0.0
  let score := if internship_info.diversity_focused then score + 0.3 else score
  let score := if candidate_info.from_rural_area then score + 0.2 else score
  let score := if candidate_info.social_category ∈ (["SC", "ST", "OBC"] : List String)
    then score + 0.2 else score
  let score := if candidate_info.first_generation_graduate then score + 0.1 else score
  min score 1.0

/-- `SmartAllocationEngine._generate_match_reasons`: threshold-triggered
reason tags, appended in the source's fixed order. -/
def generate_match_reasons (s l e sec d : ℚ) : List String :=
  (if 0.7 < s then ["Strong skill alignment"]
   else if 0.4 < s then ["Good skill match"] else [])
  ++ (if 0.8 < l then ["Perfect location match"]
      else if 0.6 < l then ["Good location fit"] else [])
  ++ (if 0.8 < e then ["Education level matches"] else [])
  ++ (if 0.8 < sec then ["Matches your sector interests"] else [])
  ++ (if 0.3 < d then ["Supports diversity and inclusion"] else [])

/-- The per-recommendation score dict, each entry rounded to 3 decimals. -/
structure ScoreSet where
  overall : ℚ
  skill_match : ℚ
  location_match : ℚ
  education_match : ℚ
  sector_match : ℚ
  diversity_bonus : ℚ
deriving DecidableEq, Inhabited

/-- One entry of the list returned by `get_recommendations`. -/
structure Recommendation where
  internship : Internship
  scores : ScoreSet
  match_reasons : List String
deriving DecidableEq, Inhabited

/-- Full-precision combined score
`s*wf['skill'] + l*wf['location'] + e*wf['education'] + sec*wf['sector'] + d*wf['diversity']`
with `wf[k] = weights[k] / 100`, before output rounding. -/
def Engine.overall_raw (e : Engine) (c : Candidate) (it : Internship) : ℚ :=
  e.calculate_skill_match_score c.skills it * ((e.weights.skill : ℚ) / 100)
  + calculate_location_preference_score c.location it.location
      c.prefers_rural it.rural_friendly * ((e.weights.location : ℚ) / 100)
  + calculate_education_match_score c.education_level it.education_level
      * ((e.weights.education : ℚ) / 100)
  + calculate_sector_interest_score c.sector_interests it.sector
      * ((e.weights.sector : ℚ) / 100)
  + calculate_diversity_score c it * ((e.weights.diversity : ℚ) / 100)

/-- The recommendation record `get_recommendations` builds for one listing. -/
def Engine.score_rec (e : Engine) (c : Candidate) (it : Internship) : Recommendation :=
  let s := e.calculate_skill_match_score c.skills it
  let l := calculate_location_preference_score c.location it.location
    c.prefers_rural it.rural_friendly
  let ed := calculate_education_match_score c.education_level it.education_level
  let sec := calculate_sector_interest_score c.sector_interests it.sector
  let d := calculate_diversity_score c it
  { internship := it,
    scores :=
      { overall := roundTo3 (e.overall_raw c it),
        skill_match := roundTo3 s,
        location_match := roundTo3 l,
        education_match := roundTo3 ed,
        sector_match := roundTo3 sec,
        diversity_bonus := roundTo3 d },
    match_reasons := generate_match_reasons s l ed sec d }

/-- Comparison used to model `recs.sort(key=lambda x: x['scores']['overall'],
reverse=True)`: a stable merge sort with this `le` is exactly a stable
descending sort on the stored (rounded) overall score. -/
def recLE (a b : Recommendation) : Bool := decide (b.scores.overall ≤ a.scores.overall)

/-- The unsorted scored list, one record per catalog entry in catalog order. -/
def Engine.scored_list (e : Engine) (c : Candidate) : List Recommendation :=
  e.internship_data.map (fun it => e.score_rec c it)

/-- `SmartAllocationEngine.make_json_serializable`: rebuilds dicts and lists
and converts sets to lists; on the recommendation values produced here
(which contain no sets) it returns an equal value. -/
def make_json_serializable (recs : List Recommendation) : List Recommendation := recs

/-- First step of `get_recommendations`: `if not self.internship_data:
self.load_sample_data()`. -/
def Engine.effective (fit : FitFun) (e : Engine) : Engine :=
  if e.internship_data = [] then e.load_sample_data fit else e

/-- `SmartAllocationEngine.get_recommendations`: score every catalog entry,
stable-sort descending by the stored rounded overall score, truncate to
`top_n`.  Returns the updated engine state together with the output list. -/
def Engine.get_recommendations (fit : FitFun) (e : Engine) (c : Candidate)
    (top_n : ℕ) : Engine × List Recommendation :=
  let en := e.effective fit
  let recs := en.scored_list c
  (en, make_json_serializable ((recs.mergeSort recLE).take top_n))

/-! ## Helper lemmas -/

/-- Unfolding `get_recommendations`: the returned engine state. -/
lemma get_recommendations_fst (fit : FitFun) (e : Engine) (c : Candidate) (n : ℕ) :
    (e.get_recommendations fit c n).1 = e.effective fit := rfl

/-- Unfolding `get_recommendations`: the returned list. -/
lemma get_recommendations_snd (fit : FitFun) (e : Engine) (c : Candidate) (n : ℕ) :
    (e.get_recommendations fit c n).2
      = (((e.effective fit).scored_list c).mergeSort recLE).take n := rfl

/-- With a non-empty catalog, the sample-data fallback does not fire. -/
lemma effective_of_ne_nil (fit : FitFun) {e : Engine} (h : e.internship_data ≠ []) :
    e.effective fit = e := by
  simp only [Engine.effective]
  exact if_neg h

/-- With an empty catalog, `get_recommendations` starts by loading samples. -/
lemma effective_of_nil (fit : FitFun) {e : Engine} (h : e.internship_data = []) :
    e.effective fit = e.load_sample_data fit := by
  simp only [Engine.effective]
  exact if_pos h

/-- The sample skill-text corpus is non-empty, so `load_sample_data` always
installs a fitted matrix. -/
lemma load_sample_data_matrix (fit : FitFun) (e : Engine) :
    (e.load_sample_data fit).skill_matrix
      = some (fit (sample_data.map (fun it => joinLower it.skills_required))) := by
  simp [Engine.load_sample_data, sample_data]

/-- Length of the output list of `get_recommendations`. -/
lemma get_recommendations_length (fit : FitFun) (e : Engine) (c : Candidate) (n : ℕ) :
    ((e.get_recommendations fit c n).2).length
      = min n (e.effective fit).internship_data.length := by
  simp [get_recommendations_snd, make_json_serializable, Engine.scored_list]

/-- Rounding error of Python `round`: at most one half. -/
lemma abs_pyRound_sub_le (q : ℚ) : |(pyRound q : ℚ) - q| ≤ 1/2 := by
  have h0 : (0 : ℚ) ≤ q - (⌊q⌋ : ℚ) := by
    have := Int.floor_le q; linarith
  have h1 : q - (⌊q⌋ : ℚ) < 1 := by
    have := Int.lt_floor_add_one q; linarith
  simp only [pyRound]
  split_ifs with hA hB hC
  · rw [abs_sub_comm, abs_of_nonneg h0]; linarith
  · push_cast
    rw [abs_of_nonneg (by linarith)]; linarith
  · rw [abs_sub_comm, abs_of_nonneg h0]; linarith
  · push_cast
    rw [abs_of_nonneg (by linarith)]; linarith

/-- Python `round` of a non-negative number is non-negative. -/
lemma pyRound_nonneg {q : ℚ} (h : 0 ≤ q) : 0 ≤ pyRound q := by
  have hf : 0 ≤ ⌊q⌋ := Int.floor_nonneg.mpr h
  simp only [pyRound]
  split_ifs <;> omega

/-- Python `round` does not overshoot an integer upper bound. -/
lemma pyRound_le_int {q : ℚ} {n : ℤ} (h : q ≤ (n : ℚ)) : pyRound q ≤ n := by
  have h1 := abs_pyRound_sub_le q
  rw [abs_le] at h1
  have h2 : (pyRound q : ℚ) < (n : ℚ) + 1 := by linarith
  exact_mod_cast Int.lt_add_one_iff.mp (by exact_mod_cast h2)

/-- Rounding to three decimals preserves non-negativity. -/
lemma roundTo3_nonneg {q : ℚ} (h : 0 ≤ q) : 0 ≤ roundTo3 q := by
  have := pyRound_nonneg (q := q * 1000) (by positivity)
  unfold roundTo3
  positivity

/-- Rounding to three decimals preserves an upper bound of the form `n/1000`. -/
lemma roundTo3_le {q : ℚ} {n : ℤ} (h : q * 1000 ≤ (n : ℚ)) : roundTo3 q ≤ (n : ℚ) / 1000 := by
  unfold roundTo3
  have := pyRound_le_int h
  have hc : ((pyRound (q * 1000) : ℚ)) ≤ (n : ℚ) := by exact_mod_cast this
  linarith

/-- Components of a clamped weight map are non-negative. -/
lemma clamped_nonneg (w : WeightMap) :
    0 ≤ w.clamped.skill ∧ 0 ≤ w.clamped.location ∧ 0 ≤ w.clamped.education
    ∧ 0 ≤ w.clamped.sector ∧ 0 ≤ w.clamped.diversity := by
  refine ⟨?_, ?_, ?_, ?_, ?_⟩ <;> exact le_max_left 0 _

/-- Python `round(0)` is `0`. -/
lemma pyRound_zero : pyRound 0 = 0 := by norm_num [pyRound]

/-- Rounding the five shares `vᵢ/T*100` of a positive total `T` keeps their
sum within 2 of 100. -/
lemma pyRound_five_sum {v1 v2 v3 v4 v5 T : ℤ} (hT : 0 < T)
    (hsum : v1 + v2 + v3 + v4 + v5 = T) :
    |pyRound ((v1 : ℚ) / (T : ℚ) * 100) + pyRound ((v2 : ℚ) / (T : ℚ) * 100)
      + pyRound ((v3 : ℚ) / (T : ℚ) * 100) + pyRound ((v4 : ℚ) / (T : ℚ) * 100)
      + pyRound ((v5 : ℚ) / (T : ℚ) * 100) - 100| ≤ 2 := by
  have hTQ : (0 : ℚ) < (T : ℚ) := by exact_mod_cast hT
  have hTne : (T : ℚ) ≠ 0 := ne_of_gt hTQ
  have hcast : ((v1 : ℚ) + v2 + v3 + v4 + v5) = (T : ℚ) := by exact_mod_cast hsum
  have hq : (v1 : ℚ) / (T : ℚ) * 100 + (v2 : ℚ) / (T : ℚ) * 100 + (v3 : ℚ) / (T : ℚ) * 100
      + (v4 : ℚ) / (T : ℚ) * 100 + (v5 : ℚ) / (T : ℚ) * 100 = 100 := by
    have step : (v1 : ℚ) / (T : ℚ) * 100 + (v2 : ℚ) / (T : ℚ) * 100 + (v3 : ℚ) / (T : ℚ) * 100
        + (v4 : ℚ) / (T : ℚ) * 100 + (v5 : ℚ) / (T : ℚ) * 100
        = ((v1 : ℚ) + v2 + v3 + v4 + v5) / (T : ℚ) * 100 := by ring
    rw [step, hcast, div_self hTne, one_mul]
  have e1 := abs_pyRound_sub_le ((v1 : ℚ) / (T : ℚ) * 100)
  have e2 := abs_pyRound_sub_le ((v2 : ℚ) / (T : ℚ) * 100)
  have e3 := abs_pyRound_sub_le ((v3 : ℚ) / (T : ℚ) * 100)
  have e4 := abs_pyRound_sub_le ((v4 : ℚ) / (T : ℚ) * 100)
  have e5 := abs_pyRound_sub_le ((v5 : ℚ) / (T : ℚ) * 100)
  rw [abs_le] at e1 e2 e3 e4 e5
  set z : ℤ := pyRound ((v1 : ℚ) / (T : ℚ) * 100) + pyRound ((v2 : ℚ) / (T : ℚ) * 100)
    + pyRound ((v3 : ℚ) / (T : ℚ) * 100) + pyRound ((v4 : ℚ) / (T : ℚ) * 100)
    + pyRound ((v5 : ℚ) / (T : ℚ) * 100) - 100 with hz
  have hzq : |(z : ℚ)| ≤ 5/2 := by
    rw [abs_le, hz]
    push_cast
    constructor <;> linarith
  have hz2 : |z| ≤ 2 := by
    by_contra hcon
    push_neg at hcon
    have hi : 3 ≤ |z| := by omega
    have h3 : (3 : ℚ) ≤ |(z : ℚ)| := by exact_mod_cast hi
    linarith
  exact hz2

/-- Positive-total case of `set_weights`: the normalized sum is within 2 of 100. -/
lemma set_weights_total_sub_abs_le (raw : WeightMap) (h : raw.clamped.total ≠ 0) :
    |(set_weights raw).total - 100| ≤ 2 := by
  obtain ⟨h1, h2, h3, h4, h5⟩ := clamped_nonneg raw
  have hT : 0 < raw.clamped.total := by
    simp only [WeightMap.total] at h ⊢
    omega
  have hne : ¬(raw.clamped.skill + raw.clamped.location + raw.clamped.education
      + raw.clamped.sector + raw.clamped.diversity = 0) := h
  have hTs : 0 < raw.clamped.skill + raw.clamped.location + raw.clamped.education
      + raw.clamped.sector + raw.clamped.diversity := hT
  have key := @pyRound_five_sum raw.clamped.skill raw.clamped.location raw.clamped.education
    raw.clamped.sector raw.clamped.diversity
    (raw.clamped.skill + raw.clamped.location + raw.clamped.education
      + raw.clamped.sector + raw.clamped.diversity) hTs rfl
  simp only [set_weights, WeightMap.total]
  rw [if_neg hne]
  exact key

/-- Degenerate case of `set_weights`: an all-zero clamped input yields the
all-zero weight map. -/
lemma set_weights_of_clamped_total_zero (raw : WeightMap) (h : raw.clamped.total = 0) :
    set_weights raw = ⟨0, 0, 0, 0, 0⟩ := by
  obtain ⟨h1, h2, h3, h4, h5⟩ := clamped_nonneg raw
  have hc : raw.clamped.skill = 0 ∧ raw.clamped.location = 0 ∧ raw.clamped.education = 0
      ∧ raw.clamped.sector = 0 ∧ raw.clamped.diversity = 0 := by
    simp only [WeightMap.total] at h
    omega
  obtain ⟨k1, k2, k3, k4, k5⟩ := hc
  simp only [set_weights, if_pos h, k1, k2, k3, k4, k5]
  norm_num [pyRound_zero]

/-- Every component of a normalized weight map is non-negative. -/
lemma set_weights_nonneg (raw : WeightMap) :
    0 ≤ (set_weights raw).skill ∧ 0 ≤ (set_weights raw).location
    ∧ 0 ≤ (set_weights raw).education ∧ 0 ≤ (set_weights raw).sector
    ∧ 0 ≤ (set_weights raw).diversity := by
  obtain ⟨h1, h2, h3, h4, h5⟩ := clamped_nonneg raw
  have hT : 0 < (if raw.clamped.total = 0 then 1 else raw.clamped.total) := by
    split_ifs with h
    · norm_num
    · simp only [WeightMap.total] at h ⊢
      omega
  refine ⟨?_, ?_, ?_, ?_, ?_⟩ <;> simp only [set_weights] <;> apply pyRound_nonneg
  · exact mul_nonneg (div_nonneg (by exact_mod_cast h1) (Int.cast_nonneg.mpr hT.le)) (by norm_num)
  · exact mul_nonneg (div_nonneg (by exact_mod_cast h2) (Int.cast_nonneg.mpr hT.le)) (by norm_num)
  · exact mul_nonneg (div_nonneg (by exact_mod_cast h3) (Int.cast_nonneg.mpr hT.le)) (by norm_num)
  · exact mul_nonneg (div_nonneg (by exact_mod_cast h4) (Int.cast_nonneg.mpr hT.le)) (by norm_num)
  · exact mul_nonneg (div_nonneg (by exact_mod_cast h5) (Int.cast_nonneg.mpr hT.le)) (by norm_num)

/-- The normalized weight total never exceeds 102. -/
lemma set_weights_total_le_102 (raw : WeightMap) : (set_weights raw).total ≤ 102 := by
  by_cases h : raw.clamped.total = 0
  · rw [set_weights_of_clamped_total_zero raw h]
    norm_num [WeightMap.total]
  · have hb := set_weights_total_sub_abs_le raw h
    rw [abs_le] at hb
    omega

/-! ## Claim theorems -/

/-- C2, counterexample: for the non-negative input
`{skill:1, location:1, education:1, sector:1, diversity:4}` (total 8) the
normalized weights are `(12,12,12,12,50)` — each `1/8*100 = 12.5` rounds
half-to-even down to 12 — so the output sums to 98, outside `100 ± 1`. -/
theorem C2_counterexample :
    (set_weights ⟨1, 1, 1, 1, 4⟩).total = 98
    ∧ ¬(|(set_weights ⟨1, 1, 1, 1, 4⟩).total - 100| ≤ 1) := by
  have h : set_weights ⟨1, 1, 1, 1, 4⟩ = ⟨12, 12, 12, 12, 50⟩ := by
    simp only [set_weights, WeightMap.clamped, WeightMap.total, WeightMap.mk.injEq]
    norm_num
    constructor <;> (simp only [pyRound]; norm_num [Int.fract])
  rw [h]
  refine ⟨by norm_num [WeightMap.total], by norm_num [WeightMap.total]⟩

/-- C2, amended: for any integer weight input, `set_weights` clamps negatives
to 0; if the clamped sum is 0 every normalized weight is 0 (the all-zero
degenerate case), and otherwise the normalized weights sum to 100 within ±2
(not ±1: five-way rounding can drift by 2, as the counterexample shows). -/
theorem C2_amended (raw : WeightMap) :
    if raw.clamped.total = 0 then set_weights raw = ⟨0, 0, 0, 0, 0⟩
    else |(set_weights raw).total - 100| ≤ 2 := by
  split_ifs with h
  · exact set_weights_of_clamped_total_zero raw h
  · exact set_weights_total_sub_abs_le raw h

/-- C9: the diversity factor score is at most 0.8 for every candidate and
internship: the four bonuses sum to at most 0.3 + 0.2 + 0.2 + 0.1 = 0.8, so
the `min(score, 1.0)` cap at 1.0 is never the binding bound. -/
theorem C9_diversity_score_le (c : Candidate) (i : Internship) :
    calculate_diversity_score c i ≤ 0.8 := by
  unfold calculate_diversity_score
  apply le_trans (min_le_left _ _)
  split_ifs <;> norm_num

/-- Location factor values are 1.0, 0.8 or 0.6, hence within [0,1]. -/
lemma location_score_bounds (a b : String) (p r : Bool) :
    0 ≤ calculate_location_preference_score a b p r
    ∧ calculate_location_preference_score a b p r ≤ 1 := by
  unfold calculate_location_preference_score
  split_ifs <;> norm_num

/-- Education factor values are 1.0, 0.8 or 0.4, hence within [0,1]. -/
lemma education_score_bounds (a b : String) :
    0 ≤ calculate_education_match_score a b ∧ calculate_education_match_score a b ≤ 1 := by
  simp only [calculate_education_match_score]
  split_ifs <;> norm_num

/-- Sector factor values are 0.5, 1.0 or 0.3, hence within [0,1]. -/
lemma sector_score_bounds (l : List String) (s : String) :
    0 ≤ calculate_sector_interest_score l s ∧ calculate_sector_interest_score l s ≤ 1 := by
  unfold calculate_sector_interest_score
  split_ifs <;> norm_num

/-- Diversity factor is a capped sum of non-negative bonuses, within [0,1]. -/
lemma diversity_score_bounds (c : Candidate) (i : Internship) :
    0 ≤ calculate_diversity_score c i ∧ calculate_diversity_score c i ≤ 1 := by
  unfold calculate_diversity_score
  refine ⟨le_min ?_ (by norm_num), le_trans (min_le_right _ _) (by norm_num)⟩
  split_ifs <;> norm_num

/-- Skill factor is within [0,1]: the fallback overlap ratio is, and the
cosine-similarity value is by the hypothesis on the fitted matrix. -/
lemma skill_score_bounds (e : Engine) (cs : List String) (it : Internship)
    (hmat : ∀ sim, e.skill_matrix = some sim → ∀ t i, 0 ≤ sim t i ∧ sim t i ≤ 1) :
    0 ≤ e.calculate_skill_match_score cs it ∧ e.calculate_skill_match_score cs it ≤ 1 := by
  unfold Engine.calculate_skill_match_score
  cases hm : e.skill_matrix with
  | some sim =>
    cases e.internship_index it with
    | none => norm_num
    | some idx => exact hmat sim hm _ idx
  | none =>
    split_ifs with h
    · norm_num
    · have hle : (it.skills_required.map pyLower).countP (fun s => decide (s ∈ cs.map pyLower))
          ≤ max 1 (it.skills_required.map pyLower).length :=
        le_trans (List.countP_le_length _) (le_max_right 1 _)
      constructor
      · exact div_nonneg (Nat.cast_nonneg _) (Nat.cast_nonneg _)
      · apply div_le_one_of_le₀
        · exact_mod_cast hle
        · exact Nat.cast_nonneg _

/-- Full-precision overall score: non-negative and at most 102/100 when the
weights come from `set_weights`. -/
lemma overall_raw_bounds (e : Engine) (c : Candidate) (it : Internship) (raw : WeightMap)
    (hw : e.weights = set_weights raw)
    (hmat : ∀ sim, e.skill_matrix = some sim → ∀ t i, 0 ≤ sim t i ∧ sim t i ≤ 1) :
    0 ≤ e.overall_raw c it ∧ e.overall_raw c it ≤ 51/50 := by
  obtain ⟨s0, s1⟩ := skill_score_bounds e c.skills it hmat
  obtain ⟨l0, l1⟩ := location_score_bounds c.location it.location c.prefers_rural it.rural_friendly
  obtain ⟨e0, e1⟩ := education_score_bounds c.education_level it.education_level
  obtain ⟨g0, g1⟩ := sector_score_bounds c.sector_interests it.sector
  obtain ⟨d0, d1⟩ := diversity_score_bounds c it
  obtain ⟨w1, w2, w3, w4, w5⟩ := set_weights_nonneg raw
  have wt := set_weights_total_le_102 raw
  rw [← hw] at w1 w2 w3 w4 w5 wt
  have q1 : (0 : ℚ) ≤ (e.weights.skill : ℚ) / 100 :=
    div_nonneg (by exact_mod_cast w1) (by norm_num)
  have q2 : (0 : ℚ) ≤ (e.weights.location : ℚ) / 100 :=
    div_nonneg (by exact_mod_cast w2) (by norm_num)
  have q3 : (0 : ℚ) ≤ (e.weights.education : ℚ) / 100 :=
    div_nonneg (by exact_mod_cast w3) (by norm_num)
  have q4 : (0 : ℚ) ≤ (e.weights.sector : ℚ) / 100 :=
    div_nonneg (by exact_mod_cast w4) (by norm_num)
  have q5 : (0 : ℚ) ≤ (e.weights.diversity : ℚ) / 100 :=
    div_nonneg (by exact_mod_cast w5) (by norm_num)
  have hwtot : (e.weights.skill : ℚ) + (e.weights.location : ℚ) + (e.weights.education : ℚ)
      + (e.weights.sector : ℚ) + (e.weights.diversity : ℚ) ≤ 102 := by
    have : e.weights.skill + e.weights.location + e.weights.education + e.weights.sector
        + e.weights.diversity ≤ 102 := wt
    exact_mod_cast this
  have t1 := mul_le_of_le_one_left q1 s1
  have t2 := mul_le_of_le_one_left q2 l1
  have t3 := mul_le_of_le_one_left q3 e1
  have t4 := mul_le_of_le_one_left q4 g1
  have t5 := mul_le_of_le_one_left q5 d1
  have n1 := mul_nonneg s0 q1
  have n2 := mul_nonneg l0 q2
  have n3 := mul_nonneg e0 q3
  have n4 := mul_nonneg g0 q4
  have n5 := mul_nonneg d0 q5
  unfold Engine.overall_raw
  constructor
  · linarith
  · linarith

/-- Rounding to three decimals preserves the bound 1. -/
lemma roundTo3_le_one {q : ℚ} (h : q ≤ 1) : roundTo3 q ≤ 1 := by
  have h1000 : q * 1000 ≤ ((1000 : ℤ) : ℚ) := by push_cast; linarith
  have := roundTo3_le h1000
  have hc : ((1000 : ℤ) : ℚ) / 1000 = 1 := by norm_num
  linarith [hc ▸ this]

/-- Rounding to three decimals preserves the bound 51/50. -/
lemma roundTo3_le_overall {q : ℚ} (h : q ≤ 51/50) : roundTo3 q ≤ 51/50 := by
  have h1000 : q * 1000 ≤ ((1020 : ℤ) : ℚ) := by push_cast; linarith
  have := roundTo3_le h1000
  have hc : ((1020 : ℤ) : ℚ) / 1000 = 51/50 := by norm_num
  linarith [hc ▸ this]

/-- Membership in the output of `get_recommendations` comes from scoring one
listing of the effective (possibly sample-loaded) catalog. -/
lemma mem_get_recommendations {fit : FitFun} {e : Engine} {c : Candidate} {n : ℕ}
    {r : Recommendation} (hr : r ∈ (e.get_recommendations fit c n).2) :
    ∃ it ∈ (e.effective fit).internship_data, r = (e.effective fit).score_rec c it := by
  rw [get_recommendations_snd] at hr
  have h1 := List.mem_of_mem_take hr
  rw [List.mem_mergeSort] at h1
  obtain ⟨it, hit, heq⟩ := List.mem_map.mp h1
  exact ⟨it, hit, heq.symm⟩

/-- The effective engine keeps the caller's weights. -/
lemma effective_weights (fit : FitFun) (e : Engine) :
    (e.effective fit).weights = e.weights := by
  by_cases h : e.internship_data = []
  · rw [effective_of_nil fit h]; rfl
  · rw [effective_of_ne_nil fit h]

/-- The effective engine's matrix is bounded whenever the caller's matrix and
the fit results are. -/
lemma effective_matrix_bounds (fit : FitFun) (e : Engine)
    (hmat : ∀ sim, e.skill_matrix = some sim → ∀ t i, 0 ≤ sim t i ∧ sim t i ≤ 1)
    (hfit : ∀ ts t i, 0 ≤ fit ts t i ∧ fit ts t i ≤ 1) :
    ∀ sim, (e.effective fit).skill_matrix = some sim → ∀ t i, 0 ≤ sim t i ∧ sim t i ≤ 1 := by
  intro sim hs
  by_cases h : e.internship_data = []
  · rw [effective_of_nil fit h, load_sample_data_matrix] at hs
    obtain rfl := (Option.some.injEq _ _).mp hs
    intro t i
    exact hfit _ t i
  · rw [effective_of_ne_nil fit h] at hs
    exact hmat sim hs

/-- Concrete stand-in for the abstract vectorizer in closed counterexamples
and witnesses: every similarity value is 0. -/
def fit0 : FitFun := fun _ _ _ => 0

/-- Candidate with no skills and no stated preferences. -/
def cand0 : Candidate := ⟨[], "", false, "Bachelor", [], false, "", false⟩

/-- C3, amended: with any weight map produced by `set_weights` and a fitted
matrix whose cosine values lie in [0,1] (true of TF-IDF cosine similarity),
every returned per-factor score lies in [0,1] and the returned overall score
lies in [0, 51/50]; the upper bound 1 claimed for `overall` is not valid
(see the counterexample, which reaches 101/100). -/
theorem C3_amended (fit : FitFun) (e : Engine) (c : Candidate) (n : ℕ) (raw : WeightMap)
    (hw : e.weights = set_weights raw)
    (hmat : ∀ sim, e.skill_matrix = some sim → ∀ t i, 0 ≤ sim t i ∧ sim t i ≤ 1)
    (hfit : ∀ ts t i, 0 ≤ fit ts t i ∧ fit ts t i ≤ 1) :
    ∀ r ∈ (e.get_recommendations fit c n).2,
      (0 ≤ r.scores.skill_match ∧ r.scores.skill_match ≤ 1)
      ∧ (0 ≤ r.scores.location_match ∧ r.scores.location_match ≤ 1)
      ∧ (0 ≤ r.scores.education_match ∧ r.scores.education_match ≤ 1)
      ∧ (0 ≤ r.scores.sector_match ∧ r.scores.sector_match ≤ 1)
      ∧ (0 ≤ r.scores.diversity_bonus ∧ r.scores.diversity_bonus ≤ 1)
      ∧ (0 ≤ r.scores.overall ∧ r.scores.overall ≤ 51/50) := by
  intro r hr
  obtain ⟨it, hit, rfl⟩ := mem_get_recommendations hr
  have hmat' := effective_matrix_bounds fit e hmat hfit
  have hw' : (e.effective fit).weights = set_weights raw := by rw [effective_weights, hw]
  obtain ⟨s0, s1⟩ := skill_score_bounds (e.effective fit) c.skills it hmat'
  obtain ⟨l0, l1⟩ := location_score_bounds c.location it.location c.prefers_rural it.rural_friendly
  obtain ⟨e0, e1⟩ := education_score_bounds c.education_level it.education_level
  obtain ⟨g0, g1⟩ := sector_score_bounds c.sector_interests it.sector
  obtain ⟨d0, d1⟩ := diversity_score_bounds c it
  obtain ⟨o0, o1⟩ := overall_raw_bounds (e.effective fit) c it raw hw' hmat'
  exact ⟨⟨roundTo3_nonneg s0, roundTo3_le_one s1⟩,
    ⟨roundTo3_nonneg l0, roundTo3_le_one l1⟩,
    ⟨roundTo3_nonneg e0, roundTo3_le_one e1⟩,
    ⟨roundTo3_nonneg g0, roundTo3_le_one g1⟩,
    ⟨roundTo3_nonneg d0, roundTo3_le_one d1⟩,
    ⟨roundTo3_nonneg o0, roundTo3_le_overall o1⟩⟩

/-- Internship used in the overall-score counterexample: an exact match for
`cand3` on skills, location, education and sector. -/
def it3 : Internship := ⟨1, "T", "C", "tech", "Delhi", ["Python"], "Bachelor", 1, 1, 1, false, false⟩

/-- Candidate matching `it3` on every weighted factor. -/
def cand3 : Candidate := ⟨["python"], "Delhi", false, "Bachelor", ["tech"], false, "", false⟩

/-- Engine whose weights come from `set_weights` on raw input `(3,1,1,1,0)`,
which normalizes to `(50,17,17,17,0)` — summing to 101. -/
def eng3 : Engine := ⟨[it3], set_weights ⟨3, 1, 1, 1, 0⟩, none⟩

/-- Normalization of the raw weights `(3,1,1,1,0)`: total 6, so the shares
are `round(50)=50`, `round(16.66)=17` three times and `round(0)=0`,
summing to 101. -/
lemma set_weights_31110 : set_weights ⟨3, 1, 1, 1, 0⟩ = ⟨50, 17, 17, 17, 0⟩ := by
  simp only [set_weights, WeightMap.clamped, WeightMap.total, WeightMap.mk.injEq]
  norm_num
  constructor <;> (simp only [pyRound]; norm_num [Int.fract])

/-- The full-precision overall score of `cand3` against `it3` is 1.01. -/
lemma overall_raw_eng3 : Engine.overall_raw eng3 cand3 it3 = 101/100 := by
  have hp1 : pyLower "Python" = "python" := by decide
  have hp2 : pyLower "python" = "python" := by decide
  have hp3 : pyLower "tech" = "tech" := by decide
  have hp4 : pyStrip "Delhi" = "Delhi" := by decide
  have hw : eng3.weights = (⟨50, 17, 17, 17, 0⟩ : WeightMap) := set_weights_31110
  rw [Engine.overall_raw, hw]
  norm_num [Engine.calculate_skill_match_score, eng3, cand3, it3,
    calculate_location_preference_score, calculate_education_match_score, education_rank,
    calculate_sector_interest_score, calculate_diversity_score,
    List.countP_cons, List.countP_nil, hp1, hp2, hp3, hp4]

/-- C3, counterexample: with weights produced by `set_weights` on the
non-negative input `(3,1,1,1,0)` (normalized to 50+17+17+17+0 = 101) and a
candidate matching `it3` on skill, location, education and sector, the
single returned recommendation has overall score 1.01 > 1, refuting the
claimed bound `overall ∈ [0,1]`. -/
theorem C3_counterexample :
    ((Engine.get_recommendations fit0 eng3 cand3 5).2.map (fun r => r.scores.overall))
      = [101/100]
    ∧ ¬((101 : ℚ)/100 ≤ 1) := by
  constructor
  · have hout : (Engine.get_recommendations fit0 eng3 cand3 5).2
        = [Engine.score_rec eng3 cand3 it3] := by
      rw [get_recommendations_snd, effective_of_ne_nil fit0 (by simp [eng3])]
      simp [Engine.scored_list, eng3, make_json_serializable]
    rw [hout]
    have hover : (Engine.score_rec eng3 cand3 it3).scores.overall
        = roundTo3 (Engine.overall_raw eng3 cand3 it3) := rfl
    rw [List.map_singleton, hover, overall_raw_eng3]
    rw [show roundTo3 (101/100) = (pyRound ((101 : ℚ)/100 * 1000) : ℚ) / 1000 from rfl]
    have hpr : pyRound ((101 : ℚ)/100 * 1000) = 1010 := by
      simp only [pyRound]
      norm_num [Int.fract]
    rw [hpr]
    norm_num
  · norm_num

/-- C3, witness for the amended theorem: the bounds hold for the
recommendation returned by the concrete engine `eng3`. -/
theorem C3_witness :
    0 ≤ ((Engine.get_recommendations fit0 eng3 cand3 5).2.head!).scores.overall
    ∧ ((Engine.get_recommendations fit0 eng3 cand3 5).2.head!).scores.overall ≤ 51/50 := by
  have hlen : ((Engine.get_recommendations fit0 eng3 cand3 5).2).length = 1 := by
    rw [get_recommendations_length, effective_of_ne_nil fit0 (by simp [eng3])]
    simp [eng3]
  have hne : (Engine.get_recommendations fit0 eng3 cand3 5).2 ≠ [] := by
    intro h
    rw [h] at hlen
    simp at hlen
  have hmem := List.head!_mem_self hne
  exact ((C3_amended fit0 eng3 cand3 5 ⟨3, 1, 1, 1, 0⟩ rfl
    (fun sim hs => by simp [eng3] at hs)
    (fun ts t i => by norm_num [fit0])) _ hmem).2.2.2.2.2

/-- C1, counterexample: called on an engine whose catalog is empty,
`get_recommendations` does not return the empty sequence — it first loads
the five built-in sample listings and scores those (the output has length
5, not 0). -/
theorem C1_counterexample :
    (Engine.get_recommendations fit0 ⟨[], ⟨30, 20, 20, 15, 15⟩, none⟩ cand0 5).2 ≠ [] := by
  have hlen : ((Engine.get_recommendations fit0 ⟨[], ⟨30, 20, 20, 15, 15⟩, none⟩ cand0 5).2).length
      = 5 := by
    rw [get_recommendations_length, effective_of_nil fit0 rfl]
    simp [Engine.load_sample_data, sample_data]
  intro h
  rw [h] at hlen
  simp at hlen

/-- C1, amended: with an empty internship catalog, `get_recommendations`
does not return the empty sequence and does not raise: it loads the five
built-in sample listings into the engine and returns `min top_n 5`
recommendations over them. -/
theorem C1_amended (fit : FitFun) (c : Candidate) (n : ℕ) (e : Engine)
    (h : e.internship_data = []) :
    ((e.get_recommendations fit c n).2).length = min n 5
    ∧ (e.get_recommendations fit c n).1.internship_data = sample_data := by
  constructor
  · rw [get_recommendations_length, effective_of_nil fit h]
    simp [Engine.load_sample_data, sample_data]
  · rw [get_recommendations_fst, effective_of_nil fit h]
    rfl

/-- C1, witness: the amended statement at a concrete empty-catalog engine. -/
theorem C1_witness :
    ((Engine.get_recommendations fit0 ⟨[], ⟨30, 20, 20, 15, 15⟩, none⟩ cand0 7).2).length
      = min 7 5
    ∧ (Engine.get_recommendations fit0 ⟨[], ⟨30, 20, 20, 15, 15⟩, none⟩ cand0 7).1.internship_data
      = sample_data :=
  C1_amended fit0 cand0 7 ⟨[], ⟨30, 20, 20, 15, 15⟩, none⟩ rfl

/-- C5, counterexample: for the empty catalog and `top_n = 3` the output has
length 3, not `min top_n (len catalog) = 0`, because the sample catalog is
loaded first. -/
theorem C5_counterexample :
    ((Engine.get_recommendations fit0 ⟨[], ⟨30, 20, 20, 15, 15⟩, none⟩ cand0 3).2).length = 3
    ∧ min 3 (([] : List Internship)).length = 0 := by
  constructor
  · rw [get_recommendations_length, effective_of_nil fit0 rfl]
    simp [Engine.load_sample_data, sample_data]
  · simp

/-- C5, amended: the output length is `min top_n (len catalog)` whenever the
catalog is non-empty; for an empty catalog it is `min top_n 5` (the sample
catalog is scored instead).  In particular `top_n = 0` always yields the
empty sequence and `top_n ≥ len catalog` yields the full ranked catalog. -/
theorem C5_amended (fit : FitFun) (e : Engine) (c : Candidate) (n : ℕ) :
    ((e.get_recommendations fit c n).2).length
      = min n (if e.internship_data = [] then 5 else e.internship_data.length) := by
  rw [get_recommendations_length]
  by_cases h : e.internship_data = []
  · rw [effective_of_nil fit h, if_pos h]
    simp [Engine.load_sample_data, sample_data]
  · rw [effective_of_ne_nil fit h, if_neg h]

/-- C10: a `get_recommendations` call on an empty catalog installs the five
sample listings and the matrix fitted on their skill texts, keeps the
weights, scores the sample catalog, and the state change persists: an
identical second call on the returned state yields the same state and
output. -/
theorem C10_sample_loading (fit : FitFun) (e : Engine) (c : Candidate) (n : ℕ)
    (h : e.internship_data = []) :
    (e.get_recommendations fit c n).1.internship_data = sample_data
    ∧ (e.get_recommendations fit c n).1.skill_matrix
        = some (fit (sample_data.map (fun it => joinLower it.skills_required)))
    ∧ (e.get_recommendations fit c n).1.weights = e.weights
    ∧ (e.get_recommendations fit c n).2
        = ((((e.get_recommendations fit c n).1).scored_list c).mergeSort recLE).take n
    ∧ ((e.get_recommendations fit c n).1).get_recommendations fit c n
        = e.get_recommendations fit c n := by
  have hfst : (e.get_recommendations fit c n).1 = e.load_sample_data fit := by
    rw [get_recommendations_fst, effective_of_nil fit h]
  have hne : (e.load_sample_data fit).internship_data ≠ [] := by
    simp [Engine.load_sample_data, sample_data]
  have heff : (e.load_sample_data fit).effective fit = e.load_sample_data fit :=
    effective_of_ne_nil fit hne
  refine ⟨by rw [hfst]; rfl, by rw [hfst]; exact load_sample_data_matrix fit e,
    by rw [hfst]; rfl, ?_, ?_⟩
  · rw [get_recommendations_snd, hfst, effective_of_nil fit h]
  · have h1 : (((e.get_recommendations fit c n).1).get_recommendations fit c n).1
        = (e.get_recommendations fit c n).1 := by
      rw [get_recommendations_fst (e := (e.get_recommendations fit c n).1), hfst, heff]
    have h2 : (((e.get_recommendations fit c n).1).get_recommendations fit c n).2
        = (e.get_recommendations fit c n).2 := by
      rw [get_recommendations_snd (e := (e.get_recommendations fit c n).1), hfst, heff,
        get_recommendations_snd, effective_of_nil fit h]
    exact Prod.ext h1 h2

/-- C10, witness: the statement at a concrete empty-catalog engine. -/
theorem C10_witness :
    (Engine.get_recommendations fit0 ⟨[], ⟨30, 20, 20, 15, 15⟩, none⟩ cand0 4).1.internship_data
      = sample_data
    ∧ (Engine.get_recommendations fit0 ⟨[], ⟨30, 20, 20, 15, 15⟩, none⟩ cand0 4).1.skill_matrix
        = some (fit0 (sample_data.map (fun it => joinLower it.skills_required)))
    ∧ (Engine.get_recommendations fit0 ⟨[], ⟨30, 20, 20, 15, 15⟩, none⟩ cand0 4).1.weights
        = (⟨[], ⟨30, 20, 20, 15, 15⟩, none⟩ : Engine).weights
    ∧ (Engine.get_recommendations fit0 ⟨[], ⟨30, 20, 20, 15, 15⟩, none⟩ cand0 4).2
        = ((((Engine.get_recommendations fit0 ⟨[], ⟨30, 20, 20, 15, 15⟩, none⟩ cand0 4).1).scored_list cand0).mergeSort recLE).take 4
    ∧ ((Engine.get_recommendations fit0 ⟨[], ⟨30, 20, 20, 15, 15⟩, none⟩ cand0 4).1).get_recommendations fit0 cand0 4
        = Engine.get_recommendations fit0 ⟨[], ⟨30, 20, 20, 15, 15⟩, none⟩ cand0 4 :=
  C10_sample_loading fit0 ⟨[], ⟨30, 20, 20, 15, 15⟩, none⟩ cand0 4 rfl

/-- C8: with a non-empty catalog a `recommend` call leaves the engine state
(and hence every stored listing record) unchanged, and every returned
recommendation embeds one of the caller's listing records unmodified.  The
embedding threads all state written by the Python code explicitly, and the
candidate record is only read, never written. -/
theorem C8_no_mutation (fit : FitFun) (e : Engine) (c : Candidate) (n : ℕ)
    (h : e.internship_data ≠ []) :
    (e.get_recommendations fit c n).1 = e
    ∧ ∀ r ∈ (e.get_recommendations fit c n).2, r.internship ∈ e.internship_data := by
  constructor
  · rw [get_recommendations_fst, effective_of_ne_nil fit h]
  · intro r hr
    obtain ⟨it, hit, rfl⟩ := mem_get_recommendations hr
    rw [effective_of_ne_nil fit h] at hit
    exact hit

/-- C8, witness: the engine state is unchanged for a concrete call. -/
theorem C8_witness : (Engine.get_recommendations fit0 eng3 cand3 2).1 = eng3 :=
  (C8_no_mutation fit0 eng3 cand3 2 (by simp [eng3])).1

/-- Behaviour of the skill scorer when no fitted matrix is present: 0.0 when
either skill list is empty, and otherwise the case-insensitive overlap count
divided by the number of required skills (`max(1, len)` equals `len` there). -/
lemma skill_score_matrix_none (e : Engine) (cs : List String) (it : Internship)
    (h : e.skill_matrix = none) :
    ((cs = [] ∨ it.skills_required = []) → e.calculate_skill_match_score cs it = 0)
    ∧ (it.skills_required ≠ [] →
        e.calculate_skill_match_score cs it
          = (((it.skills_required.map pyLower).countP
              (fun s => decide (s ∈ cs.map pyLower)) : ℕ) : ℚ)
            / ((it.skills_required.length : ℕ) : ℚ)) := by
  constructor
  · intro hemp
    simp only [Engine.calculate_skill_match_score, h]
    rw [if_pos hemp]
  · intro hreq
    by_cases hcs : cs = []
    · have h0 : e.calculate_skill_match_score cs it = 0 := by
        simp only [Engine.calculate_skill_match_score, h]
        rw [if_pos (Or.inl hcs)]
      rw [h0, hcs]
      simp
    · simp only [Engine.calculate_skill_match_score, h]
      rw [if_neg (by push_neg; exact ⟨hcs, hreq⟩)]
      have hpos : 1 ≤ it.skills_required.length := by
        have := List.length_pos.mpr hreq
        omega
      have hmax : max 1 (it.skills_required.map pyLower).length
          = it.skills_required.length := by
        rw [List.length_map]
        exact max_eq_right hpos
      rw [hmax]

/-- C6: when the similarity index is unavailable (`skill_matrix is None`),
the skill factor equals the number of required skills present
case-insensitively in the candidate's skills divided by the number of
required skills, and it is 0.0 when the candidate has no skills or the
internship requires none. -/
theorem C6_skill_fallback (e : Engine) (cs : List String) (it : Internship)
    (h : e.skill_matrix = none) :
    ((cs = [] ∨ it.skills_required = []) → e.calculate_skill_match_score cs it = 0)
    ∧ (it.skills_required ≠ [] →
        e.calculate_skill_match_score cs it
          = (((it.skills_required.map pyLower).countP
              (fun s => decide (s ∈ cs.map pyLower)) : ℕ) : ℚ)
            / ((it.skills_required.length : ℕ) : ℚ)) :=
  skill_score_matrix_none e cs it h

/-- The first sample listing, requiring Python, JavaScript, React and SQL. -/
def it6 : Internship :=
  ⟨1, "Software Development Intern", "TechCorp India", "Technology", "Bangalore",
   ["Python", "JavaScript", "React", "SQL"], "Bachelor", 5, 6, 15000, true, true⟩

/-- C6, witness: candidate skills `["Python","JavaScript"]` against required
`["Python","JavaScript","React","SQL"]` score 2/4 = 0.5 in fallback mode. -/
theorem C6_witness :
    Engine.calculate_skill_match_score Engine.init ["Python", "JavaScript"] it6 = 1/2 := by
  have h := (C6_skill_fallback Engine.init ["Python", "JavaScript"] it6 rfl).2
    (by simp [it6])
  rw [h]
  have hc : ((["Python", "JavaScript", "React", "SQL"].map pyLower).countP
      (fun s => decide (s ∈ ["Python", "JavaScript"].map pyLower))) = 2 := by decide
  show ((((["Python", "JavaScript", "React", "SQL"].map pyLower).countP
      (fun s => decide (s ∈ ["Python", "JavaScript"].map pyLower))) : ℕ) : ℚ)
      / (((["Python", "JavaScript", "React", "SQL"] : List String).length : ℕ) : ℚ) = 1/2
  rw [hc]
  norm_num

/-- Listing used for the empty-index query counterexample. -/
def it7 : Internship := ⟨1, "T", "C", "S", "L", ["Python"], "Bachelor", 0, 0, 0, false, false⟩

/-- C7, counterexample: on a fresh engine (no build has happened, the index
holds no vectors) a skill query for a candidate knowing "Python" against a
listing requiring "Python" returns 1.0 via the overlap fallback — not the
claimed 0.0. -/
theorem C7_counterexample :
    Engine.calculate_skill_match_score Engine.init ["Python"] it7 = 1 ∧ (1 : ℚ) ≠ 0 := by
  constructor
  · have h := (skill_score_matrix_none Engine.init ["Python"] it7 rfl).2 (by simp [it7])
    rw [h]
    have hc : ((["Python"].map pyLower).countP
        (fun s => decide (s ∈ ["Python"].map pyLower))) = 1 := by decide
    show ((((["Python"].map pyLower).countP
        (fun s => decide (s ∈ ["Python"].map pyLower))) : ℕ) : ℚ)
        / (((["Python"] : List String).length : ℕ) : ℚ) = 1
    rw [hc]
    norm_num
  · norm_num

/-- C7, amended: rebuilding over a catalog with no listings succeeds and
leaves an index holding no vectors, and a subsequent skill query does not
raise: it takes the overlap fallback, returning 0.0 when the candidate has
no skills or the listing requires none, and the overlap ratio otherwise
(which can be non-zero, per the counterexample).  When listings exist but
all have empty skill lists, the source still passes the non-empty list of
empty texts to the external vectorizer, so that case is not an empty index
in the code. -/
theorem C7_amended (fit : FitFun) (e : Engine) (cs : List String) (it : Internship)
    (h : e.internship_data = []) :
    (e.rebuild_tfidf fit).skill_matrix = none
    ∧ ((cs = [] ∨ it.skills_required = []) →
        (e.rebuild_tfidf fit).calculate_skill_match_score cs it = 0)
    ∧ (it.skills_required ≠ [] →
        (e.rebuild_tfidf fit).calculate_skill_match_score cs it
          = (((it.skills_required.map pyLower).countP
              (fun s => decide (s ∈ cs.map pyLower)) : ℕ) : ℚ)
            / ((it.skills_required.length : ℕ) : ℚ)) := by
  have hm : (e.rebuild_tfidf fit).skill_matrix = none := by
    simp [Engine.rebuild_tfidf, h]
  obtain ⟨h1, h2⟩ := skill_score_matrix_none (e.rebuild_tfidf fit) cs it hm
  exact ⟨hm, h1, h2⟩

/-- C7, witness: the amended statement applied to a fresh engine, whose
rebuilt index is empty and whose empty-skill query returns 0. -/
theorem C7_witness :
    (Engine.rebuild_tfidf fit0 Engine.init).skill_matrix = none
    ∧ (Engine.rebuild_tfidf fit0 Engine.init).calculate_skill_match_score [] it7 = 0 := by
  have h := C7_amended fit0 Engine.init [] it7 rfl
  exact ⟨h.1, h.2.1 (Or.inl rfl)⟩

/-- The descending comparison on stored overall scores is transitive. -/
lemma recLE_trans : ∀ (a b c : Recommendation), recLE a b → recLE b c → recLE a c := by
  intro a b c hab hbc
  simp only [recLE, decide_eq_true_eq] at hab hbc ⊢
  exact le_trans hbc hab

/-- The descending comparison on stored overall scores is total. -/
lemma recLE_total : ∀ (a b : Recommendation), recLE a b || recLE b a := by
  intro a b
  simp only [recLE]
  rcases le_total a.scores.overall b.scores.overall with h | h
  · simp [h]
  · simp [h]

/-- C4, amended: the output of `get_recommendations` is sorted in descending
order of the stored, 3-decimal-rounded overall score (the sort key the code
actually uses): every adjacent pair satisfies
`pred.scores.overall ≥ succ.scores.overall`; and the sort is stable: any
subsequence of the scored catalog whose members share one rounded overall
score is still a subsequence of the sorted list, so equal-score listings
appear in catalog iteration order.  Descending order of the full-precision
overall is not guaranteed (see the counterexample). -/
theorem C4_amended (fit : FitFun) (e : Engine) (c : Candidate) (n : ℕ) :
    ((e.get_recommendations fit c n).2).Pairwise
      (fun a b => b.scores.overall ≤ a.scores.overall)
    ∧ ∀ l : List Recommendation,
        l.Pairwise (fun a b => a.scores.overall = b.scores.overall) →
        l.Sublist ((e.effective fit).scored_list c) →
        l.Sublist (((e.effective fit).scored_list c).mergeSort recLE) := by
  constructor
  · have hs := List.sorted_mergeSort recLE_trans recLE_total ((e.effective fit).scored_list c)
    have hsub : ((e.get_recommendations fit c n).2).Sublist
        (((e.effective fit).scored_list c).mergeSort recLE) := by
      rw [get_recommendations_snd]
      exact List.take_sublist n _
    exact (hs.sublist hsub).imp (fun h => of_decide_eq_true h)
  · intro l hl hsub
    exact List.sublist_mergeSort recLE_trans recLE_total
      (hl.imp (fun h => decide_eq_true (le_of_eq h.symm))) hsub

/-- C4, witness: the amended statement at a concrete engine, with the empty
subsequence discharging the stability hypotheses. -/
theorem C4_witness :
    ((Engine.get_recommendations fit0 eng3 cand3 5).2).Pairwise
      (fun a b => b.scores.overall ≤ a.scores.overall)
    ∧ ([] : List Recommendation).Sublist
        (((Engine.effective fit0 eng3).scored_list cand3).mergeSort recLE) := by
  have h := C4_amended fit0 eng3 cand3 5
  exact ⟨h.1, h.2 [] List.Pairwise.nil (List.nil_sublist _)⟩

/-- First listing of the rounding-tie counterexample: fallback skill score
1/3 (one of three required skills matched). -/
def itA : Internship := ⟨1, "A", "CA", "SA", "LA", ["x", "y", "z"], "Bachelor", 0, 0, 0, false, false⟩

/-- Second listing of the rounding-tie counterexample: fallback skill score
8/23 (eight of twenty-three required skill entries matched). -/
def itB : Internship := ⟨2, "B", "CB", "SB", "LB",
  List.replicate 8 "x" ++ List.replicate 15 "y", "Bachelor", 0, 0, 0, false, false⟩

/-- Candidate for the rounding-tie counterexample. -/
def cand4 : Candidate := ⟨["x"], "P", false, "Bachelor", [], false, "", false⟩

/-- Engine whose weights normalize to skill 1, location 99: the overall
scores of `itA` and `itB` then differ only after the third decimal. -/
def eng4 : Engine := ⟨[itA, itB], set_weights ⟨1, 99, 0, 0, 0⟩, none⟩

/-- Raw weights `(1,99,0,0,0)` already sum to 100 and are unchanged. -/
lemma set_weights_19900 : set_weights ⟨1, 99, 0, 0, 0⟩ = ⟨1, 99, 0, 0, 0⟩ := by
  simp only [set_weights, WeightMap.clamped, WeightMap.total, WeightMap.mk.injEq]
  norm_num
  constructor <;> (simp only [pyRound]; norm_num [Int.fract])

/-- Fallback skill score of `cand4` against `itA`: 1 of 3. -/
lemma skill_eng4_A : Engine.calculate_skill_match_score eng4 cand4.skills itA = 1/3 := by
  have h := (skill_score_matrix_none eng4 cand4.skills itA rfl).2 (by simp [itA])
  rw [h]
  have hc : ((itA.skills_required.map pyLower).countP
      (fun s => decide (s ∈ cand4.skills.map pyLower))) = 1 := by decide
  have hl : itA.skills_required.length = 3 := by decide
  rw [hc, hl]
  norm_num

/-- Fallback skill score of `cand4` against `itB`: 8 of 23. -/
lemma skill_eng4_B : Engine.calculate_skill_match_score eng4 cand4.skills itB = 8/23 := by
  have h := (skill_score_matrix_none eng4 cand4.skills itB rfl).2 (by simp [itB])
  rw [h]
  have hc : ((itB.skills_required.map pyLower).countP
      (fun s => decide (s ∈ cand4.skills.map pyLower))) = 8 := by decide
  have hl : itB.skills_required.length = 23 := by decide
  rw [hc, hl]
  norm_num

/-- Location score of `cand4` against `itA`: no match, no rural flags. -/
lemma loc_eng4_A : calculate_location_preference_score cand4.location itA.location
    cand4.prefers_rural itA.rural_friendly = 3/5 := by
  unfold calculate_location_preference_score
  rw [if_neg (by decide), if_neg (by decide)]
  norm_num

/-- Location score of `cand4` against `itB`: no match, no rural flags. -/
lemma loc_eng4_B : calculate_location_preference_score cand4.location itB.location
    cand4.prefers_rural itB.rural_friendly = 3/5 := by
  unfold calculate_location_preference_score
  rw [if_neg (by decide), if_neg (by decide)]
  norm_num

/-- Education score of `cand4` against either listing: equal ranks. -/
lemma edu_eng4 : calculate_education_match_score "Bachelor" "Bachelor" = 1 := by
  simp only [calculate_education_match_score]
  norm_num

/-- Sector score of `cand4`: no stated interests, neutral 0.5. -/
lemma sec_eng4_A : calculate_sector_interest_score cand4.sector_interests itA.sector = 1/2 := by
  unfold calculate_sector_interest_score
  rw [if_pos (by decide)]
  norm_num

/-- Sector score of `cand4` against `itB`: no stated interests, neutral 0.5. -/
lemma sec_eng4_B : calculate_sector_interest_score cand4.sector_interests itB.sector = 1/2 := by
  unfold calculate_sector_interest_score
  rw [if_pos (by decide)]
  norm_num

/-- Diversity score of `cand4` against `itA`: no flags set. -/
lemma div_eng4_A : calculate_diversity_score cand4 itA = 0 := by
  simp only [calculate_diversity_score]
  rw [if_neg (by decide), if_neg (by decide), if_neg (by decide), if_neg (by decide)]
  rw [min_eq_left (by norm_num)]
  norm_num

/-- Diversity score of `cand4` against `itB`: no flags set. -/
lemma div_eng4_B : calculate_diversity_score cand4 itB = 0 := by
  simp only [calculate_diversity_score]
  rw [if_neg (by decide), if_neg (by decide), if_neg (by decide), if_neg (by decide)]
  rw [min_eq_left (by norm_num)]
  norm_num

/-- Full-precision overall score of `itA`: 1/3·0.01 + 0.6·0.99 = 224/375. -/
lemma overall_eng4_A : Engine.overall_raw eng4 cand4 itA = 224/375 := by
  rw [Engine.overall_raw, show eng4.weights = (⟨1, 99, 0, 0, 0⟩ : WeightMap) from set_weights_19900,
    skill_eng4_A, loc_eng4_A, show cand4.education_level = "Bachelor" from rfl,
    show itA.education_level = "Bachelor" from rfl, edu_eng4, sec_eng4_A, div_eng4_A]
  norm_num

/-- Full-precision overall score of `itB`: 8/23·0.01 + 0.6·0.99 = 6871/11500. -/
lemma overall_eng4_B : Engine.overall_raw eng4 cand4 itB = 6871/11500 := by
  rw [Engine.overall_raw, show eng4.weights = (⟨1, 99, 0, 0, 0⟩ : WeightMap) from set_weights_19900,
    skill_eng4_B, loc_eng4_B, show cand4.education_level = "Bachelor" from rfl,
    show itB.education_level = "Bachelor" from rfl, edu_eng4, sec_eng4_B, div_eng4_B]
  norm_num

/-- Both overall scores round to the same stored value 0.597. -/
lemma round_eng4_A : roundTo3 (224/375) = 597/1000 := by
  rw [show roundTo3 (224/375) = (pyRound ((224 : ℚ)/375 * 1000) : ℚ) / 1000 from rfl]
  have h : pyRound ((224 : ℚ)/375 * 1000) = 597 := by
    simp only [pyRound]
    norm_num [Int.fract]
  rw [h]
  norm_num

/-- The second overall score also rounds to the stored value 0.597. -/
lemma round_eng4_B : roundTo3 (6871/11500) = 597/1000 := by
  rw [show roundTo3 (6871/11500) = (pyRound ((6871 : ℚ)/11500 * 1000) : ℚ) / 1000 from rfl]
  have h : pyRound ((6871 : ℚ)/11500 * 1000) = 597 := by
    simp only [pyRound]
    norm_num [Int.fract]
  rw [h]
  norm_num

/-- C4, counterexample: in `eng4` the two listings have full-precision
overall scores 224/375 < 6871/11500, but both round to the stored key 0.597,
so the stable sort keeps catalog order and the output places the smaller
full-precision score first — the output is not sorted by the full-precision
overall score. -/
theorem C4_counterexample :
    ((Engine.get_recommendations fit0 eng4 cand4 5).2.map (fun r => r.internship.id)) = [1, 2]
    ∧ ((Engine.get_recommendations fit0 eng4 cand4 5).2.map (fun r => r.scores.overall))
        = [597/1000, 597/1000]
    ∧ Engine.overall_raw eng4 cand4 itA < Engine.overall_raw eng4 cand4 itB := by
  have hA : (Engine.score_rec eng4 cand4 itA).scores.overall = 597/1000 := by
    show roundTo3 (Engine.overall_raw eng4 cand4 itA) = 597/1000
    rw [overall_eng4_A]
    exact round_eng4_A
  have hB : (Engine.score_rec eng4 cand4 itB).scores.overall = 597/1000 := by
    show roundTo3 (Engine.overall_raw eng4 cand4 itB) = 597/1000
    rw [overall_eng4_B]
    exact round_eng4_B
  have hlist : (Engine.effective fit0 eng4).scored_list cand4
      = [Engine.score_rec eng4 cand4 itA, Engine.score_rec eng4 cand4 itB] := by
    rw [effective_of_ne_nil fit0 (by simp [eng4])]
    rfl
  have hpair : List.Pairwise (fun a b => recLE a b = true)
      [Engine.score_rec eng4 cand4 itA, Engine.score_rec eng4 cand4 itB] := by
    refine List.Pairwise.cons ?_ (List.pairwise_singleton _ _)
    intro b hb
    rw [List.mem_singleton] at hb
    subst hb
    simp [recLE, hA, hB]
  have hms : ([Engine.score_rec eng4 cand4 itA,
      Engine.score_rec eng4 cand4 itB]).mergeSort recLE
      = [Engine.score_rec eng4 cand4 itA, Engine.score_rec eng4 cand4 itB] :=
    List.mergeSort_of_sorted hpair
  have hout : (Engine.get_recommendations fit0 eng4 cand4 5).2
      = [Engine.score_rec eng4 cand4 itA, Engine.score_rec eng4 cand4 itB] := by
    rw [get_recommendations_snd, hlist, hms]
    rfl
  refine ⟨?_, ?_, ?_⟩
  · rw [hout]
    rfl
  · rw [hout, List.map_cons, List.map_cons, List.map_nil, hA, hB]
  · rw [overall_eng4_A, overall_eng4_B]
    norm_num
